import Mathlib

/-!
Verification of the Cleanup Orchestration & History Engine of
StreamLitMemCleaner (src/memcleaner.py), as a shallow embedding.

External effects are modelled by an oracle (`World`): the i-th call to
the memory sampler returns `sampleOutcome i` (`none` models a psutil
failure, which the code turns into a zeroed snapshot), and the i-th
subprocess invocation has outcome `spawn i` (either a completed process
with its stdout and exit status, or a launch failure, which the code
catches and turns into a `CommandResult` with returncode 1).  Functions
that perform external effects additionally return the list of events
they performed, in order, so that statements about calls that never
happen are expressible.  Memory quantities (GB values, Python floats in
the source) are modelled as exact rationals.  The history CSV file is
modelled as `Option (List HistoryRow)`: `none` when the file does not
exist, otherwise its parsed rows in file order; the happy I/O path of
pandas read/write is modelled (the claims under study do not concern
I/O faults of the history file itself).
-/

namespace MemCleaner

/-- One memory snapshot, as produced by `SystemMonitor.get_memory_info`
(the `MemoryInfo` TypedDict of the source). -/
structure MemoryInfo where
  total_gb : ℚ
  free_gb : ℚ
  used_gb : ℚ
  percent : ℚ
  deriving DecidableEq

/-- The cleanup modes: the `CleanupCommand(str, Enum)` of the source. -/
inductive CleanupCommand where
  | MODIFIED_PAGES
  | STANDBY_LIST
  | PRIORITY0_STANDBY
  | WORKING_SETS
  deriving DecidableEq

/-- The `.value` of each enum member: the mode token passed to the
external tool. -/
def CleanupCommand.value : CleanupCommand → String
  | .MODIFIED_PAGES => "modifiedpagelist"
  | .STANDBY_LIST => "standbylist"
  | .PRIORITY0_STANDBY => "priority0standbylist"
  | .WORKING_SETS => "workingsets"

/-- The `CommandResult(NamedTuple)` of the source. -/
structure CommandResult where
  stdout : String
  returncode : Int
  deriving DecidableEq

/-- Outcome of one attempted `subprocess.run`: either the process ran to
completion (with any exit status), or it could not be launched at all
and the call raised, carrying the exception text. -/
inductive SpawnOutcome where
  | ok (stdout : String) (returncode : Int)
  | launchFailure (msg : String)
  deriving DecidableEq

/-- `CommandExecutor.run` (src/memcleaner.py lines 147-158): returns the
completed process result as-is; catches any launch exception and returns
`CommandResult(str(e), 1)`. -/
def CommandExecutor.run : SpawnOutcome → CommandResult
  | .ok out rc => ⟨out, rc⟩
  | .launchFailure msg => ⟨msg, 1⟩

/-- The `CleanupResult(TypedDict)` of the source.  Every field is always
present: the failure paths fill `memory_after` and `freed_memory` with
the placeholder value `0.0`. -/
structure CleanupResult where
  success : Bool
  memory_before : ℚ
  memory_after : ℚ
  freed_memory : ℚ
  error : Option String
  deriving DecidableEq

/-- Oracle for the external environment of one session: whether the
tool executable exists, its path, and the outcomes of successive
memory samples and subprocess invocations. -/
structure World where
  exeExists : Bool
  exePath : String
  sampleOutcome : ℕ → Option MemoryInfo
  spawn : ℕ → SpawnOutcome

/-- `SystemMonitor.get_memory_info` at its i-th call: the psutil value,
or the zeroed snapshot when the OS query raises (lines 119-132). -/
def SystemMonitor.get_memory_info (w : World) (i : ℕ) : MemoryInfo :=
  match w.sampleOutcome i with
  | some m => m
  | none => ⟨0, 0, 0, 0⟩

/-- External events performed by the orchestration code, in order:
`sample i` is the i-th memory sample, `invoke c` one invocation of the
external tool with the token of `c`. -/
inductive Event where
  | sample (i : ℕ)
  | invoke (c : CleanupCommand)
  deriving DecidableEq

/-- Result of the command loop inside `execute_cleanup`: either every
command exited 0, or the loop returned early at the first failing
command, recording that command token and the captured output.  Both
carry the invocation events performed. -/
inductive StepsOut where
  | ok (evts : List Event)
  | failed (cmdValue : String) (output : String) (evts : List Event)
  deriving DecidableEq

/-- The events of either loop outcome. -/
def StepsOut.events : StepsOut → List Event
  | .ok tr => tr
  | .failed _ _ tr => tr

/-- The `for i, cmd in enumerate(commands)` loop of `execute_cleanup`
(lines 179-195): invoke the tool for each command in order and stop at
the first non-zero returncode.  `i` is the index of the next invocation
in the oracle. -/
def runSteps (w : World) : List CleanupCommand → ℕ → StepsOut
  | [], _ => .ok []
  | c :: rest, i =>
    if (CommandExecutor.run (w.spawn i)).returncode = 0 then
      match runSteps w rest (i + 1) with
      | .ok tr => .ok (Event.invoke c :: tr)
      | .failed cv out tr => .failed cv out (Event.invoke c :: tr)
    else
      .failed c.value (CommandExecutor.run (w.spawn i)).stdout [Event.invoke c]

/-- `MemoryCleanup.execute_cleanup` (lines 167-207).  If the executable
is missing, return the all-zero failure result without sampling or
invoking anything.  Otherwise sample memory (sample 0), run the
commands in order; on the first non-zero returncode return the failure
result with `memory_after` and `freed_memory` holding the placeholder
0.0; after all commands exit 0, sample again (sample 1) and return the
success result with the signed difference of the two free-memory
samples. -/
def MemoryCleanup.execute_cleanup (w : World) (commands : List CleanupCommand) :
    CleanupResult × List Event :=
  if w.exeExists = false then
    (⟨false, 0, 0, 0, some ("Executable not found at " ++ w.exePath)⟩, [])
  else
    match runSteps w commands 0 with
    | .failed cv out tr =>
      (⟨false, (SystemMonitor.get_memory_info w 0).free_gb, 0, 0,
        some ("Error in " ++ cv ++ ": " ++ out)⟩,
       Event.sample 0 :: tr)
    | .ok tr =>
      (⟨true, (SystemMonitor.get_memory_info w 0).free_gb,
        (SystemMonitor.get_memory_info w 1).free_gb,
        (SystemMonitor.get_memory_info w 1).free_gb -
          (SystemMonitor.get_memory_info w 0).free_gb, none⟩,
       Event.sample 0 :: tr ++ [Event.sample 1])

/-- One row of `data/memory_usage.csv` (all values stored as text). -/
structure HistoryRow where
  timestamp : String
  free_before : String
  free_after : String
  freed : String
  deriving DecidableEq

/-- Two-decimal formatting of a value, as the `:.2f` f-strings of
`save_record` do: round to hundredths and print with exactly two
decimal digits (on this rational model, ties round half up). -/
def fmt2 (q : ℚ) : String :=
  (if round (q * 100) < 0 then "-" else "") ++
    toString ((round (q * 100)).natAbs / 100) ++ "." ++
    (if (round (q * 100)).natAbs % 100 < 10 then "0" else "") ++
    toString ((round (q * 100)).natAbs % 100)

/-- The `new_data` row that `save_record` builds from a `CleanupResult`
and the current timestamp; `Freed Memory` is stored as an absolute
value (line 224). -/
def mkRow (ts : String) (record : CleanupResult) : HistoryRow :=
  ⟨ts, fmt2 record.memory_before, fmt2 record.memory_after,
    fmt2 |record.freed_memory|⟩

/-- `MemoryHistoryManager.save_record` (lines 216-240) on the happy I/O
path: read the existing CSV when present, concatenate the new row at
the end, write the result back; returns the new file state and the
boolean result of the method. -/
def MemoryHistoryManager.save_record (ts : String)
    (file : Option (List HistoryRow)) (record : CleanupResult) :
    Option (List HistoryRow) × Bool :=
  match file with
  | some rows => (some (rows ++ [mkRow ts record]), true)
  | none => (some [mkRow ts record], true)

/-- `MemoryHistoryManager.load_history` (lines 242-255): `None` when
the file does not exist, otherwise the parsed rows in file order. -/
def MemoryHistoryManager.load_history (file : Option (List HistoryRow)) :
    Option (List HistoryRow) :=
  match file with
  | none => none
  | some rows => some rows

/-- `MemoryHistoryManager.delete_history` (lines 257-270): unlink the
file and return `True` when the file exists, otherwise return `False`
without error. -/
def MemoryHistoryManager.delete_history (file : Option (List HistoryRow)) :
    Option (List HistoryRow) × Bool :=
  match file with
  | some _ => (none, true)
  | none => (none, false)

/-- Sequential appends: fold `save_record` over a list of timestamped
results, threading the file state. -/
def appendAll (file : Option (List HistoryRow))
    (recs : List (String × CleanupResult)) : Option (List HistoryRow) :=
  recs.foldl (fun f p => (MemoryHistoryManager.save_record p.1 f p.2).1) file

/-- Outcome of `HomePageUI._handle_cleanup`. -/
inductive HandleOutcome where
  | rejectedEmpty
  | succeeded (r : CleanupResult)
  | failed (r : CleanupResult)
  deriving DecidableEq

/-- `HomePageUI._handle_cleanup` (lines 433-462): reject an empty
selection with a warning and no execution; otherwise run
`execute_cleanup` and append a history record exactly when the result
has `success == True`.  Returns the outcome, the resulting history
file state, and the external events performed. -/
def HomePageUI.handle_cleanup (w : World) (ts : String)
    (file : Option (List HistoryRow)) (selected : List CleanupCommand) :
    HandleOutcome × Option (List HistoryRow) × List Event :=
  if selected = [] then
    (HandleOutcome.rejectedEmpty, file, [])
  else
    let r := MemoryCleanup.execute_cleanup w selected
    if r.1.success = true then
      (HandleOutcome.succeeded r.1,
        (MemoryHistoryManager.save_record ts file r.1).1, r.2)
    else
      (HandleOutcome.failed r.1, file, r.2)

/-- Python truthiness of an optional string (the `if tag_name:` and
`if not local_version:` tests): present and non-empty. -/
def truthy : Option String → Bool
  | none => false
  | some s => if s = "" then false else true

/-- The four classification outcomes of the Updates page. -/
inductive VersionStatus where
  | NotInstalled
  | Outdated
  | UpToDate
  | CheckFailed
  deriving DecidableEq

/-- The classification logic of `UpdatesPageUI._check_for_updates`
(lines 545-565): `if tag_name:` / `if not local_version:` /
`elif local_version != tag_name:` / `else`, with the final `else`
branch of the outer test reporting a failed check. -/
def UpdatesPageUI.check_for_updates (local_version tag_name : Option String) :
    VersionStatus :=
  if truthy tag_name = true then
    if truthy local_version = false then VersionStatus.NotInstalled
    else if local_version ≠ tag_name then VersionStatus.Outdated
    else VersionStatus.UpToDate
  else VersionStatus.CheckFailed

/-- Modelled from the spec for comparison (claim C9): remote absent
maps to CheckFailed; local absent and remote present to NotInstalled;
local equal to remote to UpToDate; otherwise Outdated.  Absence is
literally the absence of the optional string. -/
def specVersionCheck (l r : Option String) : VersionStatus :=
  match r with
  | none => VersionStatus.CheckFailed
  | some rv =>
    match l with
    | none => VersionStatus.NotInstalled
    | some lv => if lv = rv then VersionStatus.UpToDate else VersionStatus.Outdated

/-- The amended classification for claim C9: a present-but-empty
version string behaves like an absent one (Python truthiness), on both
sides of the comparison. -/
def amendedVersionCheck (l r : Option String) : VersionStatus :=
  match r with
  | none => VersionStatus.CheckFailed
  | some rv =>
    if rv = "" then VersionStatus.CheckFailed
    else
      match l with
      | none => VersionStatus.NotInstalled
      | some lv =>
        if lv = "" then VersionStatus.NotInstalled
        else if lv = rv then VersionStatus.UpToDate
        else VersionStatus.Outdated

/-- Concrete oracle: executable present, both samples defined, every
invocation exits 0. -/
def wOk : World where
  exeExists := true
  exePath := "EmptyStandbyList.exe"
  sampleOutcome := fun i =>
    if i = 0 then some ⟨16, 4, 12, 75⟩ else some ⟨16, 13 / 2, 19 / 2, 59⟩
  spawn := fun _ => SpawnOutcome.ok "" 0

/-- Concrete oracle: executable present, first invocation exits 0, the
second cannot be launched at all. -/
def wFail : World where
  exeExists := true
  exePath := "EmptyStandbyList.exe"
  sampleOutcome := fun _ => some ⟨16, 4, 12, 75⟩
  spawn := fun i => if i = 0 then SpawnOutcome.ok "" 0
    else SpawnOutcome.launchFailure "boom"

/-- Concrete oracle: executable present, every invocation exits 1. -/
def wStepFail : World where
  exeExists := true
  exePath := "EmptyStandbyList.exe"
  sampleOutcome := fun _ => some ⟨16, 4, 12, 75⟩
  spawn := fun _ => SpawnOutcome.ok "access denied" 1

/-- Concrete oracle: executable missing. -/
def wNoExe : World where
  exeExists := false
  exePath := "EmptyStandbyList.exe"
  sampleOutcome := fun _ => none
  spawn := fun _ => SpawnOutcome.launchFailure "never launched"

/-- Concrete timestamped results for history-append statements. -/
def recsW : List (String × CleanupResult) :=
  [("2024-05-01 10:00:00", ⟨true, 4, 13 / 2, 5 / 2, none⟩),
   ("2024-05-01 11:00:00", ⟨true, 13 / 2, 6, -(1 / 2), none⟩)]

/-- Claim C6, counterexample: a launch failure is returned by
`CommandExecutor.run` as a plain `CommandResult` with returncode 1,
byte-for-byte identical to a completed process that exited 1 with the
same output, so it is not surfaced as a distinct LaunchError. -/
theorem run_launch_failure_indistinguishable :
    CommandExecutor.run (SpawnOutcome.launchFailure "boom") =
      CommandExecutor.run (SpawnOutcome.ok "boom" 1) := rfl

/-- Claim C6, amended: `CommandExecutor.run` never throws at all.  A
completed process is returned as a normal result for every exit
status, and a launch failure is also returned as a normal
`CommandResult`, with the exception text as stdout and returncode 1,
not distinguished from a non-zero exit. -/
theorem run_never_throws :
    (∀ out rc, CommandExecutor.run (SpawnOutcome.ok out rc) =
      CommandResult.mk out rc) ∧
    (∀ msg, CommandExecutor.run (SpawnOutcome.launchFailure msg) =
      CommandResult.mk msg 1) :=
  ⟨fun _ _ => rfl, fun _ => rfl⟩

/-- Claim C7, counterexample: `load_history` on a store that does not
exist returns `None`, which is not an empty sequence of records. -/
theorem load_history_missing_not_empty_seq :
    MemoryHistoryManager.load_history (none : Option (List HistoryRow)) ≠
      some ([] : List HistoryRow) := by
  simp [MemoryHistoryManager.load_history]

/-- Claim C7, amended: `load_history` on a store that does not exist
returns `None` (a no-data marker the callers treat as an empty
history), not an error. -/
theorem load_history_missing_returns_none :
    MemoryHistoryManager.load_history (none : Option (List HistoryRow)) =
      none := rfl

/-- Claim C8, counterexample: on a store file that exists but holds no
records, `delete_history` removes the file and returns `True`, not
`False`. -/
theorem delete_history_empty_store_returns_true :
    (MemoryHistoryManager.delete_history (some ([] : List HistoryRow))).2 ≠
      false := by
  simp [MemoryHistoryManager.delete_history]

/-- Claim C8, amended: `delete_history` on a non-existent store is a
no-op that returns `False` and never raises; on an existing store,
even one holding no records, it removes the file and returns `True`. -/
theorem delete_history_behavior :
    MemoryHistoryManager.delete_history (none : Option (List HistoryRow)) =
      (none, false) ∧
    ∀ rows : List HistoryRow,
      MemoryHistoryManager.delete_history (some rows) = (none, true) :=
  ⟨rfl, fun _ => rfl⟩

/-- Claim C9, counterexample: for local version `some ""` (an existing
but blank version file) and remote `some "v2.0"`, the code classifies
the pair as NotInstalled, while the claimed mapping (local present and
different from remote) yields Outdated. -/
theorem check_for_updates_empty_local_counterexample :
    UpdatesPageUI.check_for_updates (some "") (some "v2.0") =
      VersionStatus.NotInstalled ∧
    specVersionCheck (some "") (some "v2.0") = VersionStatus.Outdated := by
  constructor
  · decide
  · decide

/-- Claim C9, amended: the version check realises the four-way
classification with absence read as Python falsiness: remote absent or
empty maps to CheckFailed; local absent or empty (remote non-empty) to
NotInstalled; local equal to remote to UpToDate; otherwise Outdated. -/
theorem check_for_updates_classification :
    ∀ l r, UpdatesPageUI.check_for_updates l r = amendedVersionCheck l r := by
  intro l r
  cases r with
  | none => rfl
  | some rv =>
    by_cases hr : rv = ""
    · subst hr
      cases l <;>
        simp [UpdatesPageUI.check_for_updates, amendedVersionCheck, truthy]
    · cases l with
      | none =>
        simp [UpdatesPageUI.check_for_updates, amendedVersionCheck, truthy, hr]
      | some lv =>
        by_cases hl : lv = ""
        · subst hl
          simp [UpdatesPageUI.check_for_updates, amendedVersionCheck, truthy, hr]
        · by_cases he : lv = rv
          · subst he
            simp [UpdatesPageUI.check_for_updates, amendedVersionCheck, truthy,
              hr, hl]
          · simp [UpdatesPageUI.check_for_updates, amendedVersionCheck, truthy,
              hr, hl, he]

/-- If every command in the list exits 0, the loop completes and its
events are exactly one invocation per command, in order. -/
lemma runSteps_all_zero (w : World) :
    ∀ (cmds : List CleanupCommand) (i : ℕ),
      (∀ j, j < cmds.length →
        (CommandExecutor.run (w.spawn (i + j))).returncode = 0) →
      runSteps w cmds i = StepsOut.ok (cmds.map Event.invoke) := by
  intro cmds
  induction cmds with
  | nil => intro i _; rfl
  | cons c rest ih =>
    intro i h
    have h0 : (CommandExecutor.run (w.spawn i)).returncode = 0 := by
      simpa using h 0 (by simp)
    have hrest : ∀ j, j < rest.length →
        (CommandExecutor.run (w.spawn (i + 1 + j))).returncode = 0 := by
      intro j hj
      have e : i + 1 + j = i + (j + 1) := by omega
      rw [e]
      exact h (j + 1) (by simp [List.length_cons]; omega)
    simp [runSteps, h0, ih (i + 1) hrest]

/-- If the k-th command is the first whose invocation has a non-zero
returncode, the loop stops there: it reports that command token and
output, and its events are invocations of exactly the first k+1
commands, in order. -/
lemma runSteps_fail_at (w : World) :
    ∀ (cmds : List CleanupCommand) (i k : ℕ) (hk : k < cmds.length),
      (∀ j, j < k → (CommandExecutor.run (w.spawn (i + j))).returncode = 0) →
      (CommandExecutor.run (w.spawn (i + k))).returncode ≠ 0 →
      runSteps w cmds i =
        StepsOut.failed (cmds.get ⟨k, hk⟩).value
          (CommandExecutor.run (w.spawn (i + k))).stdout
          ((cmds.take (k + 1)).map Event.invoke) := by
  intro cmds
  induction cmds with
  | nil => intro i k hk; exact absurd hk (by simp)
  | cons c rest ih =>
    intro i k hk hprev hfail
    cases k with
    | zero =>
      have h0 : (CommandExecutor.run (w.spawn i)).returncode ≠ 0 := by
        simpa using hfail
      simp [runSteps, h0]
    | succ k =>
      have h0 : (CommandExecutor.run (w.spawn i)).returncode = 0 := by
        simpa using hprev 0 (by omega)
      have hk2 : k < rest.length := by
        simpa [List.length_cons] using hk
      have hprev2 : ∀ j, j < k →
          (CommandExecutor.run (w.spawn (i + 1 + j))).returncode = 0 := by
        intro j hj
        have e : i + 1 + j = i + (j + 1) := by omega
        rw [e]
        exact hprev (j + 1) (by omega)
      have hfail2 :
          (CommandExecutor.run (w.spawn (i + 1 + k))).returncode ≠ 0 := by
        have e : i + 1 + k = i + (k + 1) := by omega
        rw [e]
        exact hfail
      have hrec := ih (i + 1) k hk2 hprev2 hfail2
      have e : i + 1 + k = i + (k + 1) := by omega
      rw [e] at hrec
      simp [runSteps, h0, hrec, List.take_succ_cons]

/-- The loop only invokes the external tool: its events never contain a
memory sample. -/
lemma runSteps_no_sample (w : World) (n : ℕ) :
    ∀ (cmds : List CleanupCommand) (i : ℕ),
      Event.sample n ∉ (runSteps w cmds i).events := by
  intro cmds
  induction cmds with
  | nil => intro i; simp [runSteps, StepsOut.events]
  | cons c rest ih =>
    intro i
    by_cases h0 : (CommandExecutor.run (w.spawn i)).returncode = 0
    · have hrest := ih (i + 1)
      cases hrs : runSteps w rest (i + 1) with
      | ok tr =>
        rw [hrs] at hrest
        simp [StepsOut.events] at hrest
        simp [runSteps, h0, hrs, StepsOut.events, hrest]
      | failed cv out tr =>
        rw [hrs] at hrest
        simp [StepsOut.events] at hrest
        simp [runSteps, h0, hrs, StepsOut.events, hrest]
    · simp [runSteps, h0, StepsOut.events]

/-- Shape of `execute_cleanup` when the executable is present and the
loop stopped early. -/
lemma execute_eq_of_failed (w : World) (cmds : List CleanupCommand)
    (cv out : String) (tr : List Event) (hexe : w.exeExists = true)
    (hrs : runSteps w cmds 0 = StepsOut.failed cv out tr) :
    MemoryCleanup.execute_cleanup w cmds =
      (⟨false, (SystemMonitor.get_memory_info w 0).free_gb, 0, 0,
        some ("Error in " ++ cv ++ ": " ++ out)⟩, Event.sample 0 :: tr) := by
  simp [MemoryCleanup.execute_cleanup, hexe, hrs]

/-- Shape of `execute_cleanup` when the executable is present and every
command exited 0. -/
lemma execute_eq_of_ok (w : World) (cmds : List CleanupCommand)
    (tr : List Event) (hexe : w.exeExists = true)
    (hrs : runSteps w cmds 0 = StepsOut.ok tr) :
    MemoryCleanup.execute_cleanup w cmds =
      (⟨true, (SystemMonitor.get_memory_info w 0).free_gb,
        (SystemMonitor.get_memory_info w 1).free_gb,
        (SystemMonitor.get_memory_info w 1).free_gb -
          (SystemMonitor.get_memory_info w 0).free_gb, none⟩,
       Event.sample 0 :: tr ++ [Event.sample 1]) := by
  simp [MemoryCleanup.execute_cleanup, hexe, hrs]

/-- Shape of `execute_cleanup` when the executable is missing. -/
lemma execute_eq_of_noexe (w : World) (cmds : List CleanupCommand)
    (hexe : w.exeExists = false) :
    MemoryCleanup.execute_cleanup w cmds =
      (⟨false, 0, 0, 0,
        some ("Executable not found at " ++ w.exePath)⟩, []) := by
  simp [MemoryCleanup.execute_cleanup, hexe]

/-- Appending to an existing store keeps every prior row and adds the
new rows at the end, in order. -/
lemma appendAll_some (recs : List (String × CleanupResult)) :
    ∀ rows : List HistoryRow,
      appendAll (some rows) recs =
        some (rows ++ recs.map (fun p => mkRow p.1 p.2)) := by
  induction recs with
  | nil => intro rows; simp [appendAll]
  | cons p rest ih =>
    intro rows
    have h1 : appendAll (some rows) (p :: rest) =
        appendAll (some (rows ++ [mkRow p.1 p.2])) rest := by
      simp [appendAll, MemoryHistoryManager.save_record]
    rw [h1, ih]
    simp

/-- Claim C1: if the executable is present, every operation before
index k exits 0 and the k-th invocation has a non-zero returncode
(which includes a launch failure, returned by `CommandExecutor.run` as
returncode 1), then `execute_cleanup` stops at step k: the result has
`success = false`, `memory_after` holds the 0.0 placeholder (it is
never filled from a sample: the event trace shows exactly one memory
sample and invocations of exactly the first k+1 commands, so
operations k+1..n are never invoked and the post-run sample is never
taken). -/
theorem execute_cleanup_halts_on_failure (w : World)
    (cmds : List CleanupCommand) (k : ℕ) (hexe : w.exeExists = true)
    (hk : k < cmds.length)
    (hprev : ∀ j, j < k → (CommandExecutor.run (w.spawn j)).returncode = 0)
    (hfail : (CommandExecutor.run (w.spawn k)).returncode ≠ 0) :
    (MemoryCleanup.execute_cleanup w cmds).1.success = false ∧
    (MemoryCleanup.execute_cleanup w cmds).1.memory_after = 0 ∧
    (MemoryCleanup.execute_cleanup w cmds).2 =
      Event.sample 0 :: (cmds.take (k + 1)).map Event.invoke := by
  have hrs := runSteps_fail_at w cmds 0 k hk
    (by intro j hj; simpa using hprev j hj) (by simpa using hfail)
  have he := execute_eq_of_failed w cmds (cmds.get ⟨k, hk⟩).value
    (CommandExecutor.run (w.spawn (0 + k))).stdout
    ((cmds.take (k + 1)).map Event.invoke) hexe hrs
  rw [he]
  exact ⟨rfl, rfl, rfl⟩

/-- Claim C1 witness: with the second of three selected operations
failing to launch, the session fails, `memory_after` stays at the
placeholder, and only the first two operations are ever invoked. -/
theorem execute_cleanup_halts_on_failure_witness :
    (MemoryCleanup.execute_cleanup wFail
      [CleanupCommand.MODIFIED_PAGES, CleanupCommand.STANDBY_LIST,
        CleanupCommand.WORKING_SETS]).1.success = false ∧
    (MemoryCleanup.execute_cleanup wFail
      [CleanupCommand.MODIFIED_PAGES, CleanupCommand.STANDBY_LIST,
        CleanupCommand.WORKING_SETS]).1.memory_after = 0 ∧
    (MemoryCleanup.execute_cleanup wFail
      [CleanupCommand.MODIFIED_PAGES, CleanupCommand.STANDBY_LIST,
        CleanupCommand.WORKING_SETS]).2 =
      Event.sample 0 ::
        (([CleanupCommand.MODIFIED_PAGES, CleanupCommand.STANDBY_LIST,
          CleanupCommand.WORKING_SETS].take (1 + 1)).map Event.invoke) :=
  execute_cleanup_halts_on_failure wFail
    [CleanupCommand.MODIFIED_PAGES, CleanupCommand.STANDBY_LIST,
      CleanupCommand.WORKING_SETS] 1 rfl (by decide)
    (by intro j hj
        have hj0 : j = 0 := by omega
        subst hj0
        rfl)
    (by decide)

/-- Claim C2: if the executable is present and every selected
operation exits 0, the result has `success = true`, `memory_before`
and `memory_after` are the two free-memory samples in order, and
`freed_memory` is exactly their signed difference (exact rational
subtraction, never clamped, negative when free memory decreased). -/
theorem execute_cleanup_all_success (w : World)
    (cmds : List CleanupCommand) (hne : cmds ≠ [])
    (hexe : w.exeExists = true)
    (hall : ∀ i, i < cmds.length →
      (CommandExecutor.run (w.spawn i)).returncode = 0) :
    (MemoryCleanup.execute_cleanup w cmds).1.success = true ∧
    (MemoryCleanup.execute_cleanup w cmds).1.memory_before =
      (SystemMonitor.get_memory_info w 0).free_gb ∧
    (MemoryCleanup.execute_cleanup w cmds).1.memory_after =
      (SystemMonitor.get_memory_info w 1).free_gb ∧
    (MemoryCleanup.execute_cleanup w cmds).1.freed_memory =
      (SystemMonitor.get_memory_info w 1).free_gb -
        (SystemMonitor.get_memory_info w 0).free_gb := by
  have hrs := runSteps_all_zero w cmds 0
    (by intro j hj; simpa using hall j hj)
  have he := execute_eq_of_ok w cmds (cmds.map Event.invoke) hexe hrs
  rw [he]
  exact ⟨rfl, rfl, rfl, rfl⟩

/-- Claim C2 witness: two selected operations, both exiting 0; the
session succeeds and reports the exact signed free-memory delta. -/
theorem execute_cleanup_all_success_witness :
    (MemoryCleanup.execute_cleanup wOk
      [CleanupCommand.STANDBY_LIST, CleanupCommand.WORKING_SETS]).1.success =
      true ∧
    (MemoryCleanup.execute_cleanup wOk
      [CleanupCommand.STANDBY_LIST,
        CleanupCommand.WORKING_SETS]).1.memory_before =
      (SystemMonitor.get_memory_info wOk 0).free_gb ∧
    (MemoryCleanup.execute_cleanup wOk
      [CleanupCommand.STANDBY_LIST,
        CleanupCommand.WORKING_SETS]).1.memory_after =
      (SystemMonitor.get_memory_info wOk 1).free_gb ∧
    (MemoryCleanup.execute_cleanup wOk
      [CleanupCommand.STANDBY_LIST,
        CleanupCommand.WORKING_SETS]).1.freed_memory =
      (SystemMonitor.get_memory_info wOk 1).free_gb -
        (SystemMonitor.get_memory_info wOk 0).free_gb :=
  execute_cleanup_all_success wOk
    [CleanupCommand.STANDBY_LIST, CleanupCommand.WORKING_SETS]
    (by decide) rfl (fun _ _ => rfl)

/-- Claim C3: appending N timestamped records sequentially to an
initially non-existent store and then loading yields exactly the N
derived rows, in insertion order (stated for N at least 1; with zero
appends the store still does not exist and `load_history` returns the
no-data marker of claim C7). -/
theorem save_record_preserves_history
    (recs : List (String × CleanupResult)) (hne : recs ≠ []) :
    MemoryHistoryManager.load_history (appendAll none recs) =
      some (recs.map (fun p => mkRow p.1 p.2)) := by
  rcases recs with _ | ⟨p, rest⟩
  · exact absurd rfl hne
  · have h1 : appendAll none (p :: rest) =
        appendAll (some [mkRow p.1 p.2]) rest := by
      simp [appendAll, MemoryHistoryManager.save_record]
    rw [h1, appendAll_some rest [mkRow p.1 p.2]]
    simp [MemoryHistoryManager.load_history]

/-- Claim C3 witness: two concrete records appended in sequence are
both loaded back, in insertion order. -/
theorem save_record_preserves_history_witness :
    MemoryHistoryManager.load_history (appendAll none recsW) =
      some (recsW.map (fun p => mkRow p.1 p.2)) :=
  save_record_preserves_history recsW (by decide)

/-- Claim C4: whenever `execute_cleanup` reports `success = false`,
the result never carries a post-run sample (`memory_after` is the 0.0
placeholder and the event trace contains no second memory sample), and
`_handle_cleanup` leaves the history store untouched: no record of
that run is ever appended. -/
theorem failed_run_not_recorded (w : World)
    (selected : List CleanupCommand) (ts : String)
    (file : Option (List HistoryRow))
    (hfail : (MemoryCleanup.execute_cleanup w selected).1.success = false) :
    (MemoryCleanup.execute_cleanup w selected).1.memory_after = 0 ∧
    Event.sample 1 ∉ (MemoryCleanup.execute_cleanup w selected).2 ∧
    (HomePageUI.handle_cleanup w ts file selected).2.1 = file := by
  have hhandle : (HomePageUI.handle_cleanup w ts file selected).2.1 = file := by
    by_cases hsel : selected = []
    · simp [HomePageUI.handle_cleanup, hsel]
    · simp [HomePageUI.handle_cleanup, hsel, hfail]
  by_cases hexe : w.exeExists = true
  · cases hrs : runSteps w selected 0 with
    | ok tr =>
      rw [execute_eq_of_ok w selected tr hexe hrs] at hfail
      simp at hfail
    | failed cv out tr =>
      have he := execute_eq_of_failed w selected cv out tr hexe hrs
      refine ⟨by rw [he], ?_, hhandle⟩
      have hns := runSteps_no_sample w 1 selected 0
      rw [hrs] at hns
      simp [StepsOut.events] at hns
      rw [he]
      simp [hns]
  · have hexe2 : w.exeExists = false := by
      simpa using hexe
    have he := execute_eq_of_noexe w selected hexe2
    refine ⟨by rw [he], by rw [he]; simp, hhandle⟩

/-- Claim C4 witness: a run whose first step exits 1 fails, takes no
post-run sample, and appends nothing to an empty history store. -/
theorem failed_run_not_recorded_witness :
    (MemoryCleanup.execute_cleanup wStepFail
      [CleanupCommand.MODIFIED_PAGES,
        CleanupCommand.STANDBY_LIST]).1.memory_after = 0 ∧
    Event.sample 1 ∉ (MemoryCleanup.execute_cleanup wStepFail
      [CleanupCommand.MODIFIED_PAGES, CleanupCommand.STANDBY_LIST]).2 ∧
    (HomePageUI.handle_cleanup wStepFail "2024-05-01 10:00:00" none
      [CleanupCommand.MODIFIED_PAGES, CleanupCommand.STANDBY_LIST]).2.1 =
      none :=
  failed_run_not_recorded wStepFail
    [CleanupCommand.MODIFIED_PAGES, CleanupCommand.STANDBY_LIST]
    "2024-05-01 10:00:00" none (by decide)

/-- Claim C5: when the tool executable does not exist,
`execute_cleanup` fails immediately: the result has `success = false`
and the event trace is empty, so no memory sample is taken and no
external command is invoked. -/
theorem execute_cleanup_missing_exe (w : World)
    (cmds : List CleanupCommand) (hexe : w.exeExists = false) :
    (MemoryCleanup.execute_cleanup w cmds).1.success = false ∧
    (MemoryCleanup.execute_cleanup w cmds).2 = [] := by
  rw [execute_eq_of_noexe w cmds hexe]
  exact ⟨rfl, rfl⟩

/-- Claim C5 witness: with the executable absent, a one-operation
selection fails with no external activity at all. -/
theorem execute_cleanup_missing_exe_witness :
    (MemoryCleanup.execute_cleanup wNoExe
      [CleanupCommand.STANDBY_LIST]).1.success = false ∧
    (MemoryCleanup.execute_cleanup wNoExe
      [CleanupCommand.STANDBY_LIST]).2 = [] :=
  execute_cleanup_missing_exe wNoExe [CleanupCommand.STANDBY_LIST] rfl

/-- Claim C10: if the executable exists, `execute_cleanup` on an empty
selection is not rejected: it takes both memory samples, invokes the
tool zero times (the trace holds exactly the two sample events), and
returns `success = true` with `freed_memory` the difference of the two
samples; the non-empty-selection validation lives only in
`_handle_cleanup`, which rejects the empty selection itself without
calling the orchestrator. -/
theorem execute_cleanup_empty_ok (w : World) (ts : String)
    (file : Option (List HistoryRow)) (hexe : w.exeExists = true) :
    (MemoryCleanup.execute_cleanup w []).1.success = true ∧
    (MemoryCleanup.execute_cleanup w []).1.freed_memory =
      (SystemMonitor.get_memory_info w 1).free_gb -
        (SystemMonitor.get_memory_info w 0).free_gb ∧
    (MemoryCleanup.execute_cleanup w []).2 =
      [Event.sample 0, Event.sample 1] ∧
    HomePageUI.handle_cleanup w ts file [] =
      (HandleOutcome.rejectedEmpty, file, []) := by
  have he := execute_eq_of_ok w [] [] hexe rfl
  rw [he]
  exact ⟨rfl, rfl, rfl, rfl⟩

/-- Claim C10 witness: concrete empty-selection run with the
executable present, and its rejection by the UI handler. -/
theorem execute_cleanup_empty_ok_witness :
    (MemoryCleanup.execute_cleanup wOk []).1.success = true ∧
    (MemoryCleanup.execute_cleanup wOk []).1.freed_memory =
      (SystemMonitor.get_memory_info wOk 1).free_gb -
        (SystemMonitor.get_memory_info wOk 0).free_gb ∧
    (MemoryCleanup.execute_cleanup wOk []).2 =
      [Event.sample 0, Event.sample 1] ∧
    HomePageUI.handle_cleanup wOk "2024-05-01 10:00:00" none [] =
      (HandleOutcome.rejectedEmpty, none, []) :=
  execute_cleanup_empty_ok wOk "2024-05-01 10:00:00" none rfl

end MemCleaner
